import Mathlib

/-!
Shallow embedding of the glyph layout engine in `text.go` (package gltext).

Numeric model: Go `float32` values are modelled as exact rationals (`ℚ`);
every quantity the claims touch is produced by small additions, subtractions,
halvings, mins and maxes, so the rational model tracks the float model
exactly on the inputs used here. Go `rune` (an `int32` codepoint) is
modelled as `ℤ`, and `[]rune` strings as `List ℤ`.

Omitted from the model, none of it observable by the layout claims:
the OpenGL resource handles (`vao`, `vbo`, `ebo`), the GPU upload calls,
`Draw`, `Release`, the `fmt.Sprintf` formatting path of `SetString`
(the claims use the plain-string path, `len(argv) == 0`), and the
`IsDebug` diagnostic branches (they only print and build the debug
bounding-box outline object).

The glyph metrics table lives in font/config code that is not part of
`src/`; `Glyph` and `Font` below are modelled from the spec: a per-glyph
record of width, height, horizontal advance and a UV rectangle given by
two corner points (`GetIndices` returns `tP1`, `tP2`), and a font exposing
the glyph list, the low codepoint and the window dimensions.
-/

namespace GLText

/-- Point is a 2D coordinate, used for vertex positions, UV corners and
bounding-box corners (struct `Point` in the repository). -/
structure Point where
  X : ℚ
  Y : ℚ
deriving DecidableEq, Repr, Inhabited

/-- Modelled from the spec: per-character glyph metrics record (width,
height, horizontal advance, UV rectangle corners `tP1`/`tP2` as returned
by `GetIndices`); the concrete struct lives in font code outside `src/`. -/
structure Glyph where
  Width : ℚ
  Height : ℚ
  Advance : ℚ
  TP1 : Point
  TP2 : Point
deriving DecidableEq, Repr, Inhabited

/-- Modelled from the spec: the font/atlas provider surface used by
`text.go` — glyph table indexed by `codepoint - Low`, the low codepoint,
and the window dimensions used for NDC conversion. -/
structure Font where
  Glyphs : List Glyph
  Low : ℤ
  WindowWidth : ℚ
  WindowHeight : ℚ
deriving DecidableEq, Repr, Inhabited

/-- Align is the justification mode (`AlignLeft`, `AlignRight`). -/
inductive Align where
  | AlignLeft
  | AlignRight
deriving DecidableEq, Repr

/-- Text mirrors the `Text` struct of `text.go`, minus the GPU handles.
`scaleMatrix` models `mgl32.Mat4` as a flat list of 16 rationals whose Go
zero value is sixteen zeros. `String` stores the laid-out runes. -/
structure Text where
  font : Font
  finalPosition : Point
  color : ℚ × ℚ × ℚ
  Scale : ℚ
  ScaleMin : ℚ
  ScaleMax : ℚ
  scaleMatrix : List ℚ
  vboData : List ℚ
  vboIndexCount : ℕ
  eboData : List ℤ
  eboIndexCount : ℕ
  RuneCount : ℕ
  MaxRuneCount : ℤ
  X1 : Point
  X2 : Point
  SetPositionX : ℚ
  SetPositionY : ℚ
  Width : ℚ
  Height : ℚ
  String : List ℤ
deriving DecidableEq, Repr

/-- scale3D models `mgl32.Scale3D(s, s, s)`: the homogeneous uniform scale
matrix, flattened to 16 entries with 1 in the last diagonal slot. -/
def scale3D (s : ℚ) : List ℚ :=
  [s, 0, 0, 0, 0, s, 0, 0, 0, 0, s, 0, 0, 0, 0, 1]

/-- setScale embeds `(*Text).SetScale`: reject (no mutation, false) when
`s > ScaleMax || s < ScaleMin`, otherwise store the scalar and the matrix. -/
def setScale (t : Text) (s : ℚ) : Text × Bool :=
  if s > t.ScaleMax ∨ s < t.ScaleMin then (t, false)
  else ({ t with Scale := s, scaleMatrix := scale3D s }, true)

/-- addScale embeds `(*Text).AddScale`: reject only when the delta pushes
against a boundary already reached; otherwise add the delta. -/
def addScale (t : Text) (s : ℚ) : Text × Bool :=
  if s < 0 ∧ t.Scale ≤ t.ScaleMin then (t, false)
  else if s > 0 ∧ t.Scale ≥ t.ScaleMax then (t, false)
  else ({ t with Scale := t.Scale + s, scaleMatrix := scale3D (t.Scale + s) }, true)

/-- setColor embeds `(*Text).SetColor`. -/
def setColor (t : Text) (r g b : ℚ) : Text :=
  { t with color := (r, g, b) }

/-- newText embeds `NewText(f, scaleMin, scaleMax)`: start from the Go zero
value of `Text` (every numeric field 0, every slice nil, the matrix the
zero `Mat4`), bind the font, set the scale range, then call `SetScale(1)`
(whose result is discarded). The GL buffer/vertex-array setup is omitted. -/
def newText (f : Font) (scaleMin scaleMax : ℚ) : Text :=
  let t : Text := {
    font := f
    finalPosition := ⟨0, 0⟩
    color := (0, 0, 0)
    Scale := 0
    ScaleMin := scaleMin
    ScaleMax := scaleMax
    scaleMatrix := List.replicate 16 0
    vboData := []
    vboIndexCount := 0
    eboData := []
    eboIndexCount := 0
    RuneCount := 0
    MaxRuneCount := 0
    X1 := ⟨0, 0⟩
    X2 := ⟨0, 0⟩
    SetPositionX := 0
    SetPositionY := 0
    Width := 0
    Height := 0
    String := [] }
  (setScale t 1).1

/-- GetLength embeds `(*Text).GetLength`. -/
def GetLength (t : Text) : ℕ :=
  t.eboIndexCount / 6

/-- hasRune embeds `(*Text).HasRune`: `r -= low; r >= 0 && int(r) < len(glyphs)`. -/
def hasRune (t : Text) (r : ℤ) : Bool :=
  let glyphs := t.font.Glyphs
  let low := t.font.Low
  let i := r - low
  decide (0 ≤ i ∧ i < (glyphs.length : ℤ))

/-- BufState carries the mutable state threaded through `makeBufferData`:
the vertex floats and index entries written so far, the pen `lineX`, the
running index offset `eboOffset`, and the bounding box fields `X1`/`X2`
of the `Text` (mutated through `getBoundingBox`). -/
structure BufState where
  vbo : List ℚ
  ebo : List ℤ
  lineX : ℚ
  eboOffset : ℤ
  X1 : Point
  X2 : Point
deriving DecidableEq, Repr

/-- getBoundingBox embeds `(*Text).getBoundingBox`, reformulated over the
vertex's start offset in the vertex buffer and the position just written:
the Go code is called with `vboIndex` pointing just past the 4 floats, and
seeds `X1` (only) when `vboIndex-4 == 0`, i.e. for the very first vertex;
otherwise it expands `X1` down and `X2` up componentwise. -/
def getBoundingBox (vertexStart : ℕ) (X1 X2 : Point) (x y : ℚ) : Point × Point :=
  if vertexStart = 0 then (⟨x, y⟩, X2)
  else (⟨min X1.X x, min X1.Y y⟩, ⟨max X2.X x, max X2.Y y⟩)

/-- emitGlyph embeds one iteration of the emission branch of
`makeBufferData`: write the counter-clockwise quad (4 vertices of
position.xy + uv.xy, calling `getBoundingBox` after each), advance the
pen by the glyph's advance, append the 6 triangle indices offset by
`eboOffset`, and bump `eboOffset` by 4. -/
def emitGlyph (st : BufState) (g : Glyph) : BufState :=
  let vw := g.Width
  let vh := g.Height
  let b := st.vbo.length
  let bb1 := getBoundingBox b st.X1 st.X2 st.lineX 0
  let bb2 := getBoundingBox (b + 4) bb1.1 bb1.2 (st.lineX + vw) 0
  let bb3 := getBoundingBox (b + 8) bb2.1 bb2.2 (st.lineX + vw) vh
  let bb4 := getBoundingBox (b + 12) bb3.1 bb3.2 st.lineX vh
  { vbo := st.vbo ++
      [st.lineX, 0, g.TP1.X, g.TP2.Y,
       st.lineX + vw, 0, g.TP2.X, g.TP2.Y,
       st.lineX + vw, vh, g.TP2.X, g.TP1.Y,
       st.lineX, vh, g.TP1.X, g.TP1.Y]
    ebo := st.ebo ++
      [0 + st.eboOffset, 1 + st.eboOffset, 2 + st.eboOffset,
       0 + st.eboOffset, 2 + st.eboOffset, 3 + st.eboOffset]
    lineX := st.lineX + g.Advance
    eboOffset := st.eboOffset + 4
    X1 := bb4.1
    X2 := bb4.2 }

/-- glyphAt looks up the glyph the emission branch reads (`glyphs[r]` after
`r -= low`); only evaluated under the in-range guard. -/
def glyphAt (f : Font) (r : ℤ) : Glyph :=
  f.Glyphs.getD (r - f.Low).toNat default

/-- stepRune embeds the body of the `for _, r := range indices` loop of
`makeBufferData`: `r -= low; if r >= 0 && int(r) < len(glyphs)` emit the
quad, else do nothing. -/
def stepRune (f : Font) (st : BufState) (r : ℤ) : BufState :=
  let i := r - f.Low
  if 0 ≤ i ∧ i < (f.Glyphs.length : ℤ) then emitGlyph st (glyphAt f r)
  else st

/-- emptyBufState is the state `makeBufferData` starts from: empty buffers,
pen at 0, offset 0, and `X1 = X2 = (0,0)` as set by `SetString` just before
the call. -/
def emptyBufState : BufState :=
  { vbo := [], ebo := [], lineX := 0, eboOffset := 0, X1 := ⟨0, 0⟩, X2 := ⟨0, 0⟩ }

/-- makeBufferData embeds `(*Text).makeBufferData` as a fold of `stepRune`
over the runes. In Go the emitted floats are written into the front of a
zero-initialised array; here `vbo`/`ebo` are the emitted prefixes, and
`setString` appends the zero padding to recover the full arrays. -/
def makeBufferData (f : Font) (indices : List ℤ) : BufState :=
  indices.foldl (stepRune f) emptyBufState

/-- getLowerLeft embeds `(*Text).getLowerLeft`, as a function of the
bounding-box corners it reads. -/
def getLowerLeft (X1 X2 : Point) : Point :=
  ⟨-((X2.X - X1.X) / 2), -((X2.Y - X1.Y) / 2)⟩

/-- addOffset embeds the in-place loop of `(*Text).setDataPosition`: add
the lower-left offset to the two position floats of every vertex and skip
the two texture floats. The Go loop handles four vertices (16 floats) per
iteration; since the buffer length is always a multiple of 16, the uniform
stride-4 recursion below traverses exactly the same slots. -/
def addOffset (lowerLeft : Point) : List ℚ → List ℚ
  | x :: y :: u :: v :: rest =>
      (x + lowerLeft.X) :: (y + lowerLeft.Y) :: u :: v :: addOffset lowerLeft rest
  | l => l

/-- setPosition embeds `(*Text).SetPosition`: store the NDC-converted
final position, translate the bounding box by `(x, y)` for hit testing,
and remember the anchor. The `IsDebug` branch is omitted. -/
def setPosition (t : Text) (x y : ℚ) : Text :=
  { t with
    finalPosition := ⟨x / (t.font.WindowWidth / 2), y / (t.font.WindowHeight / 2)⟩
    X1 := ⟨t.X1.X + x, t.X1.Y + y⟩
    X2 := ⟨t.X2.X + x, t.X2.Y + y⟩
    SetPositionX := x
    SetPositionY := y }

/-- justify embeds `(*Text).Justify`: compute the new anchor from the
current anchor and half the box width (sign flipped for right alignment),
rebuild the origin-centered box, and re-invoke `SetPosition`. -/
def justify (t : Text) (align : Align) : Text :=
  let sign : ℚ := if align = Align.AlignRight then -1 else 1
  let x := t.SetPositionX + sign * (t.X2.X - t.X1.X) / 2
  let y := t.SetPositionY
  let tX2 : Point := ⟨(t.X2.X - t.X1.X) / 2, (t.X2.Y - t.X1.Y) / 2⟩
  let tX1 : Point := ⟨-tX2.X, -tX2.Y⟩
  setPosition { t with X1 := tX1, X2 := tX2 } x y

/-- truncateRunes embeds the truncation step of `SetString`:
`if t.MaxRuneCount > 0 && len(indices) > t.MaxRuneCount+1` keep only the
first `MaxRuneCount` runes. -/
def truncateRunes (maxRuneCount : ℤ) (indices : List ℤ) : List ℤ :=
  if 0 < maxRuneCount ∧ (indices.length : ℤ) > maxRuneCount + 1 then
    indices.take maxRuneCount.toNat
  else indices

/-- setString embeds `(*Text).SetString` on the plain-string path
(`len(argv) == 0`): return unchanged on empty input; truncate; set the
counts, the string and the zero-padded buffers; reset `X1`/`X2` to zero
and run `makeBufferData`; recenter data and box by the lower-left offset;
set `Width`/`Height`; finally re-apply the remembered anchor through
`SetPosition`. The GPU upload between the recentering and the final
`SetPosition` call is omitted. -/
def setString (t : Text) (fs : List ℤ) : Text :=
  if fs.length = 0 then t
  else
    let indices := truncateRunes t.MaxRuneCount fs
    let vboIndexCount := indices.length * 4 * 2 * 2
    let eboIndexCount := indices.length * 6
    let st := makeBufferData t.font indices
    let vboFull := st.vbo ++ List.replicate (vboIndexCount - st.vbo.length) 0
    let eboFull := st.ebo ++ List.replicate (eboIndexCount - st.ebo.length) 0
    let lowerLeft := getLowerLeft st.X1 st.X2
    let X1 : Point := ⟨st.X1.X + lowerLeft.X, st.X1.Y + lowerLeft.Y⟩
    let X2 : Point := ⟨st.X2.X + lowerLeft.X, st.X2.Y + lowerLeft.Y⟩
    let t' := { t with
      String := indices
      vboIndexCount := vboIndexCount
      eboIndexCount := eboIndexCount
      RuneCount := indices.length
      vboData := addOffset lowerLeft vboFull
      eboData := eboFull
      X1 := X1
      X2 := X2
      Width := X2.X - X1.X
      Height := X2.Y - X1.Y }
    setPosition t' t'.SetPositionX t'.SetPositionY

/-- glyphA is a sample glyph used by the concrete instances: width 10,
height 20, advance 12 (the metrics of the spec's worked example). -/
def glyphA : Glyph :=
  ⟨10, 20, 12, ⟨0, 0⟩, ⟨1/2, 1⟩⟩

/-- glyphB is a second sample glyph: width 8, height 20, advance 10. -/
def glyphB : Glyph :=
  ⟨8, 20, 10, ⟨1/2, 0⟩, ⟨1, 1⟩⟩

/-- sampleFont holds glyphs for codepoints 65 and 66 only, in an 800×600
window. -/
def sampleFont : Font :=
  ⟨[glyphA, glyphB], 65, 800, 600⟩

/-- textScale is a text object with scale range `[1/2, 2]` and current
scale `3/2`, built through the constructor and an accepted `SetScale`. -/
def textScale : Text :=
  (setScale (newText sampleFont (1/2) 2) (3/2)).1

/-- textAB lays out the two-rune string `[65, 66]` (\"AB\") on a fresh text
object and then positions it at `(100, 100)`. -/
def textAB : Text :=
  setPosition (setString (newText sampleFont (1/2) 2) [65, 66]) 100 100

/-- textMax3 is a fresh text object whose `MaxRuneCount` is 3. -/
def textMax3 : Text :=
  { newText sampleFont (1/2) 2 with MaxRuneCount := 3 }

end GLText

namespace GLText

/-- alignLeft_ne_right reduces the alignment test of `justify` for the
left-aligned case. -/
lemma alignLeft_ne_right : (Align.AlignLeft = Align.AlignRight) = False := by
  simp only [eq_iff_iff, iff_false]
  exact fun h => Align.noConfusion h

/-- C1 (counterexample): with scale range `[1/2, 2]` and current scale
`3/2`, `AddScale(1)` is accepted and stores the out-of-range scale `5/2`,
contradicting the claim that it returns false and mutates nothing whenever
the resulting scale falls outside the range. -/
theorem addScale_escapes_range :
    textScale.ScaleMin = 1/2 ∧ textScale.ScaleMax = 2 ∧ textScale.Scale = 3/2 ∧
    (addScale textScale 1).2 = true ∧ (addScale textScale 1).1.Scale = 5/2 ∧
    ¬((5 : ℚ)/2 ≤ textScale.ScaleMax) := by
  norm_num [textScale, newText, setScale, addScale]

/-- C1 (amended): `SetScale(s)` rejects — returns false and mutates
nothing — whenever `s` lies outside `[ScaleMin, ScaleMax]`; `AddScale(d)`,
however, only compares the current scale against the boundary in `d`'s
direction, so whenever the current scale is strictly inside the range it
accepts every delta and stores `Scale + d`, even when that result lies
outside the range. -/
theorem setScale_rejects_addScale_overshoots (t : Text) (s d : ℚ)
    (hs : s > t.ScaleMax ∨ s < t.ScaleMin)
    (h1 : t.ScaleMin < t.Scale) (h2 : t.Scale < t.ScaleMax) :
    setScale t s = (t, false) ∧
    addScale t d =
      ({ t with Scale := t.Scale + d, scaleMatrix := scale3D (t.Scale + d) }, true) := by
  constructor
  · simp only [setScale]
    rw [if_pos hs]
  · have hd1 : ¬(d < 0 ∧ t.Scale ≤ t.ScaleMin) := fun h => absurd h.2 (not_le.mpr h1)
    have hd2 : ¬(d > 0 ∧ t.Scale ≥ t.ScaleMax) := fun h => absurd h.2 (not_le.mpr h2)
    simp only [addScale]
    rw [if_neg hd1, if_neg hd2]

/-- C1 (witness): the amended statement instantiated at scale range
`[1/2, 2]`, current scale `3/2`, rejected `SetScale(4)` and accepted
`AddScale(1)`. -/
theorem setScale_rejects_addScale_overshoots_witness :
    ((4 : ℚ) > textScale.ScaleMax ∨ (4 : ℚ) < textScale.ScaleMin) ∧
    textScale.ScaleMin < textScale.Scale ∧ textScale.Scale < textScale.ScaleMax ∧
    (setScale textScale 4 = (textScale, false) ∧
     addScale textScale 1 =
       ({ textScale with
           Scale := textScale.Scale + 1
           scaleMatrix := scale3D (textScale.Scale + 1) }, true)) :=
  ⟨Or.inl (by norm_num [textScale, newText, setScale]),
   by norm_num [textScale, newText, setScale],
   by norm_num [textScale, newText, setScale],
   setScale_rejects_addScale_overshoots textScale 4 1
     (Or.inl (by norm_num [textScale, newText, setScale]))
     (by norm_num [textScale, newText, setScale])
     (by norm_num [textScale, newText, setScale])⟩

/-- C2 (counterexample): after laying out \"AB\" (box width 20) and
`SetPosition(100,100)`, one `Justify(AlignLeft)` stores anchor 110 while
two calls store anchor 120 and a bounding box shifted 10 further right —
repeated same-alignment calls are not idempotent. -/
theorem justify_left_not_idempotent :
    (justify textAB Align.AlignLeft).SetPositionX = 110 ∧
    (justify (justify textAB Align.AlignLeft) Align.AlignLeft).SetPositionX = 120 ∧
    (justify (justify textAB Align.AlignLeft) Align.AlignLeft).X1 ≠
      (justify textAB Align.AlignLeft).X1 := by
  norm_num [textAB, newText, setScale, setString, truncateRunes, makeBufferData,
    stepRune, emitGlyph, glyphAt, getBoundingBox, emptyBufState, getLowerLeft,
    addOffset, setPosition, justify, sampleFont, glyphA, glyphB, min_def, max_def,
    alignLeft_ne_right, Point.mk.injEq]

/-- C2 (amended): every `Justify(AlignLeft)` call moves the stored anchor
right by half the current box width (which the call preserves), so a
second immediate call shifts the anchor and the bounding box by a further
half-width instead of reproducing the single-call state; the two states
agree only when the box width is zero. -/
theorem justify_left_shifts (t : Text) :
    (justify t Align.AlignLeft).SetPositionX
      = t.SetPositionX + (t.X2.X - t.X1.X) / 2 ∧
    (justify t Align.AlignLeft).SetPositionY = t.SetPositionY ∧
    (justify (justify t Align.AlignLeft) Align.AlignLeft).SetPositionX
      = t.SetPositionX + (t.X2.X - t.X1.X) ∧
    (justify (justify t Align.AlignLeft) Align.AlignLeft).X1.X
      = (justify t Align.AlignLeft).X1.X + (t.X2.X - t.X1.X) / 2 ∧
    (justify (justify t Align.AlignLeft) Align.AlignLeft).X2.X
      = (justify t Align.AlignLeft).X2.X + (t.X2.X - t.X1.X) / 2 := by
  simp only [justify, setPosition, alignLeft_ne_right, if_false]
  refine ⟨by ring, trivial, by ring, by ring, by ring⟩

/-- C6: a rune whose table index `r - low` is negative or at least the
glyph-table length leaves the whole buffer state unchanged: no vertices,
no indices, and the pen `lineX` does not advance. -/
theorem stepRune_skips_out_of_range (f : Font) (st : BufState) (r : ℤ)
    (h : ¬(0 ≤ r - f.Low ∧ r - f.Low < (f.Glyphs.length : ℤ))) :
    stepRune f st r = st := by
  simp only [stepRune]
  rw [if_neg h]

/-- C6 (witness): rune 90 ('Z') is out of range for a table covering
codepoints 65–66, and processing it from the initial state is the
identity. -/
theorem stepRune_skips_out_of_range_witness :
    ¬(0 ≤ (90 : ℤ) - sampleFont.Low ∧
        (90 : ℤ) - sampleFont.Low < (sampleFont.Glyphs.length : ℤ)) ∧
    stepRune sampleFont emptyBufState 90 = emptyBufState :=
  ⟨by decide, stepRune_skips_out_of_range sampleFont emptyBufState 90 (by decide)⟩

/-- C8: laying out an empty rune sequence is a complete no-op — the text
object, including its string, buffers, rune counts, bounding box and
position, is returned exactly unchanged. -/
theorem setString_empty_noop (t : Text) : setString t [] = t := rfl

/-- C10: the constructor initialises the scale via `SetScale(1)`, so
whenever 1 lies outside `[scaleMin, scaleMax]` that call is rejected and
the returned object keeps the zero-value scale 0 and the zero-value scale
matrix. -/
theorem newText_out_of_range_scale_zero (f : Font) (smin smax : ℚ)
    (h : 1 > smax ∨ 1 < smin) :
    (newText f smin smax).Scale = 0 ∧
    (newText f smin smax).scaleMatrix = List.replicate 16 0 := by
  simp only [newText, setScale]
  rw [if_pos h]
  exact ⟨rfl, rfl⟩

/-- C10 (witness): with scale range `[2, 3]`, the constructed object has
scale 0 and the all-zero matrix. -/
theorem newText_out_of_range_scale_zero_witness :
    ((1 : ℚ) > 3 ∨ (1 : ℚ) < 2) ∧
    ((newText sampleFont 2 3).Scale = 0 ∧
     (newText sampleFont 2 3).scaleMatrix = List.replicate 16 0) :=
  ⟨Or.inr (by norm_num),
   newText_out_of_range_scale_zero sampleFont 2 3 (Or.inr (by norm_num))⟩

end GLText

namespace GLText

/-- C4: the truncation guard of `SetString` compares against
`MaxRuneCount + 1`, so with `MaxRuneCount = 3` a 4-rune input (\"HELL\")
slips through untruncated — all 4 runes are stored and counted — while a
5-rune input (\"HELLO\") is cut to 3 (\"HEL\"); the field's own comment
(\"no longer than this string\") and the spec demand truncation whenever
the input exceeds `MaxRuneCount`. -/
theorem maxRuneCount_off_by_one :
    textMax3.MaxRuneCount = 3 ∧
    (setString textMax3 [72, 69, 76, 76]).String = [72, 69, 76, 76] ∧
    (setString textMax3 [72, 69, 76, 76]).RuneCount = 4 ∧
    (setString textMax3 [72, 69, 76, 76, 79]).String = [72, 69, 76] := by
  norm_num [textMax3, newText, setScale, setString, truncateRunes, makeBufferData,
    stepRune, emitGlyph, glyphAt, getBoundingBox, emptyBufState, getLowerLeft,
    addOffset, setPosition, sampleFont, glyphA, glyphB, min_def, max_def]
  decide

/-- inRange is the emission guard of `makeBufferData`, identical to the
body of `HasRune`. -/
def inRange (f : Font) (r : ℤ) : Bool :=
  decide (0 ≤ r - f.Low ∧ r - f.Low < (f.Glyphs.length : ℤ))

/-- hasRune_eq_inRange states that `HasRune` evaluates exactly the
emission guard on the text's font. -/
lemma hasRune_eq_inRange (t : Text) (r : ℤ) : hasRune t r = inRange t.font r := rfl

/-- stepRune_eq restates the loop body through the Boolean guard. -/
lemma stepRune_eq (f : Font) (st : BufState) (r : ℤ) :
    stepRune f st r = if inRange f r then emitGlyph st (glyphAt f r) else st := by
  simp [stepRune, inRange]

/-- emitGlyph_vbo_length: one emitted glyph appends 16 vertex floats. -/
lemma emitGlyph_vbo_length (st : BufState) (g : Glyph) :
    (emitGlyph st g).vbo.length = st.vbo.length + 16 := by
  simp [emitGlyph]

/-- emitGlyph_ebo_length: one emitted glyph appends 6 index entries. -/
lemma emitGlyph_ebo_length (st : BufState) (g : Glyph) :
    (emitGlyph st g).ebo.length = st.ebo.length + 6 := by
  simp [emitGlyph]

/-- stepRune_vbo_length: a rune appends 16 floats when in range and none
otherwise. -/
lemma stepRune_vbo_length (f : Font) (st : BufState) (r : ℤ) :
    (stepRune f st r).vbo.length
      = st.vbo.length + (if inRange f r then 16 else 0) := by
  rw [stepRune_eq]
  cases hb : inRange f r <;> simp [emitGlyph_vbo_length]

/-- stepRune_ebo_length: a rune appends 6 index entries when in range and
none otherwise. -/
lemma stepRune_ebo_length (f : Font) (st : BufState) (r : ℤ) :
    (stepRune f st r).ebo.length
      = st.ebo.length + (if inRange f r then 6 else 0) := by
  rw [stepRune_eq]
  cases hb : inRange f r <;> simp [emitGlyph_ebo_length]

/-- foldl_stepRune_lengths: over any rune list, the emitted buffer sizes
grow by 16, resp. 6, per in-range rune. -/
lemma foldl_stepRune_lengths (f : Font) :
    ∀ (rs : List ℤ) (st : BufState),
      (rs.foldl (stepRune f) st).vbo.length
        = st.vbo.length + 16 * rs.countP (inRange f) ∧
      (rs.foldl (stepRune f) st).ebo.length
        = st.ebo.length + 6 * rs.countP (inRange f) := by
  intro rs
  induction rs with
  | nil => intro st; simp
  | cons r rs ih =>
    intro st
    rcases ih (stepRune f st r) with ⟨ihv, ihe⟩
    constructor
    · rw [List.foldl_cons, ihv, stepRune_vbo_length, List.countP_cons]
      cases hb : inRange f r <;> simp [hb] <;> omega
    · rw [List.foldl_cons, ihe, stepRune_ebo_length, List.countP_cons]
      cases hb : inRange f r <;> simp [hb] <;> omega

/-- makeBufferData_lengths: the emitted buffers hold exactly 16 floats and
6 indices per in-range rune; skipped runes contribute nothing. -/
lemma makeBufferData_lengths (f : Font) (rs : List ℤ) :
    (makeBufferData f rs).vbo.length = 16 * rs.countP (inRange f) ∧
    (makeBufferData f rs).ebo.length = 6 * rs.countP (inRange f) := by
  have h := foldl_stepRune_lengths f rs emptyBufState
  simpa [makeBufferData, emptyBufState] using h

/-- addOffset_length: recentring the vertex data keeps its length. -/
theorem addOffset_length (p : Point) : (l : List ℚ) → (addOffset p l).length = l.length
  | x :: y :: u :: v :: rest => by
      simp only [addOffset, List.length_cons, addOffset_length p rest]
  | [] => rfl
  | [x] => rfl
  | [x, y] => rfl
  | [x, y, u] => rfl

/-- setPosition_vboData: positioning does not touch the vertex buffer. -/
lemma setPosition_vboData (t : Text) (x y : ℚ) :
    (setPosition t x y).vboData = t.vboData := rfl

/-- setPosition_eboData: positioning does not touch the index buffer. -/
lemma setPosition_eboData (t : Text) (x y : ℚ) :
    (setPosition t x y).eboData = t.eboData := rfl

/-- C3 (counterexample): rune 90 ('Z') has no glyph in a table covering
65–66, so zero glyphs are laid out; yet `SetString` on the one-rune string
`[90]` produces a 16-float vertex buffer and a 6-entry index buffer, not
the empty buffers the claim requires for zero laid-out characters. -/
theorem skipped_rune_still_allocates :
    hasRune (newText sampleFont (1/2) 2) 90 = false ∧
    (makeBufferData sampleFont [90]).vbo.length = 0 ∧
    (setString (newText sampleFont (1/2) 2) [90]).vboData.length = 16 ∧
    (setString (newText sampleFont (1/2) 2) [90]).eboData.length = 6 := by
  norm_num [newText, setScale, setString, truncateRunes, makeBufferData,
    stepRune, emitGlyph, glyphAt, getBoundingBox, emptyBufState, getLowerLeft,
    addOffset, setPosition, sampleFont, glyphA, glyphB, hasRune]

/-- C3 (amended): after a non-empty `SetString`, the vertex buffer length
is 16 × (rune count after truncation) and the index buffer length is
6 × (rune count after truncation) — skipped runes still occupy
(zero-filled) buffer space; only the emitted prefix, of 16 floats and 6
indices per in-range rune, carries geometry. -/
theorem setString_buffer_lengths (t : Text) (rs : List ℤ) (h : rs ≠ []) :
    (setString t rs).vboData.length
      = 16 * (truncateRunes t.MaxRuneCount rs).length ∧
    (setString t rs).eboData.length
      = 6 * (truncateRunes t.MaxRuneCount rs).length ∧
    (makeBufferData t.font (truncateRunes t.MaxRuneCount rs)).vbo.length
      = 16 * (truncateRunes t.MaxRuneCount rs).countP (inRange t.font) := by
  have h0 : ¬(rs.length = 0) := by simpa using h
  have hv := (makeBufferData_lengths t.font (truncateRunes t.MaxRuneCount rs)).1
  have he := (makeBufferData_lengths t.font (truncateRunes t.MaxRuneCount rs)).2
  have hcv : (truncateRunes t.MaxRuneCount rs).countP (inRange t.font)
      ≤ (truncateRunes t.MaxRuneCount rs).length := List.countP_le_length _
  simp only [setString]
  rw [if_neg h0]
  simp only [setPosition_vboData, setPosition_eboData]
  refine ⟨?_, ?_, hv⟩
  · rw [addOffset_length, List.length_append, List.length_replicate, hv]
    omega
  · rw [List.length_append, List.length_replicate, he]
    omega

/-- C3 (witness): the amended statement instantiated on the two-rune input
`[65, 90]` (one glyph present, one skipped): both buffers are sized for 2
runes while the emitted prefix holds a single glyph. -/
theorem setString_buffer_lengths_witness :
    (([65, 90] : List ℤ) ≠ []) ∧
    ((setString (newText sampleFont (1/2) 2) [65, 90]).vboData.length
        = 16 * (truncateRunes (newText sampleFont (1/2) 2).MaxRuneCount [65, 90]).length ∧
     (setString (newText sampleFont (1/2) 2) [65, 90]).eboData.length
        = 6 * (truncateRunes (newText sampleFont (1/2) 2).MaxRuneCount [65, 90]).length ∧
     (makeBufferData (newText sampleFont (1/2) 2).font
          (truncateRunes (newText sampleFont (1/2) 2).MaxRuneCount [65, 90])).vbo.length
        = 16 * (truncateRunes (newText sampleFont (1/2) 2).MaxRuneCount [65, 90]).countP
            (inRange (newText sampleFont (1/2) 2).font)) :=
  ⟨by decide, setString_buffer_lengths (newText sampleFont (1/2) 2) [65, 90] (by decide)⟩

end GLText

namespace GLText

/-- foldl_stepRune_all_skip: a rune list whose every member fails the
emission guard leaves the buffer state untouched. -/
lemma foldl_stepRune_all_skip (f : Font) :
    ∀ (rs : List ℤ) (st : BufState),
      (∀ x ∈ rs, inRange f x = false) → rs.foldl (stepRune f) st = st := by
  intro rs
  induction rs with
  | nil => intro st _; rfl
  | cons r rs ih =>
    intro st h
    rw [List.foldl_cons, stepRune_eq, h r (List.mem_cons_self r rs)]
    exact ih st fun x hx => h x (List.mem_cons_of_mem r hx)

/-- C7: an in-range rune appends exactly the counter-clockwise quad
starting at the pen position — vertices `(lineX,0)`, `(lineX+width,0)`,
`(lineX+width,height)`, `(lineX,height)` interleaved with the glyph's UV
corners — advances the pen by the glyph's advance, and appends the six
indices `(0,1,2),(0,2,3)` offset by `4k` where `k` is the number of glyphs
emitted so far (`eboOffset = 4k`), leaving `eboOffset = 4(k+1)`. -/
theorem emitted_quad_geometry (f : Font) (st : BufState) (r : ℤ) (k : ℕ)
    (h : 0 ≤ r - f.Low ∧ r - f.Low < (f.Glyphs.length : ℤ))
    (hoff : st.eboOffset = 4 * k) :
    (stepRune f st r).vbo = st.vbo ++
      [st.lineX, 0, (glyphAt f r).TP1.X, (glyphAt f r).TP2.Y,
       st.lineX + (glyphAt f r).Width, 0, (glyphAt f r).TP2.X, (glyphAt f r).TP2.Y,
       st.lineX + (glyphAt f r).Width, (glyphAt f r).Height,
         (glyphAt f r).TP2.X, (glyphAt f r).TP1.Y,
       st.lineX, (glyphAt f r).Height, (glyphAt f r).TP1.X, (glyphAt f r).TP1.Y] ∧
    (stepRune f st r).ebo = st.ebo ++
      [4 * (k : ℤ), 4 * (k : ℤ) + 1, 4 * (k : ℤ) + 2,
       4 * (k : ℤ), 4 * (k : ℤ) + 2, 4 * (k : ℤ) + 3] ∧
    (stepRune f st r).lineX = st.lineX + (glyphAt f r).Advance ∧
    (stepRune f st r).eboOffset = 4 * (k + 1) := by
  simp only [stepRune]
  rw [if_pos h]
  refine ⟨?_, ?_, ?_, ?_⟩
  · rfl
  · simp only [emitGlyph, hoff, List.append_cancel_left_eq, List.cons.injEq, and_true]
    omega
  · rfl
  · simp only [emitGlyph, hoff]
    omega

/-- C7 (witness): the quad law instantiated at rune 65 on the initial
state (`k = 0`). -/
theorem emitted_quad_geometry_witness :
    (0 ≤ (65 : ℤ) - sampleFont.Low ∧
      (65 : ℤ) - sampleFont.Low < (sampleFont.Glyphs.length : ℤ)) ∧
    emptyBufState.eboOffset = 4 * (0 : ℕ) ∧
    ((stepRune sampleFont emptyBufState 65).vbo = emptyBufState.vbo ++
      [emptyBufState.lineX, 0, (glyphAt sampleFont 65).TP1.X, (glyphAt sampleFont 65).TP2.Y,
       emptyBufState.lineX + (glyphAt sampleFont 65).Width, 0,
         (glyphAt sampleFont 65).TP2.X, (glyphAt sampleFont 65).TP2.Y,
       emptyBufState.lineX + (glyphAt sampleFont 65).Width, (glyphAt sampleFont 65).Height,
         (glyphAt sampleFont 65).TP2.X, (glyphAt sampleFont 65).TP1.Y,
       emptyBufState.lineX, (glyphAt sampleFont 65).Height,
         (glyphAt sampleFont 65).TP1.X, (glyphAt sampleFont 65).TP1.Y] ∧
    (stepRune sampleFont emptyBufState 65).ebo = emptyBufState.ebo ++
      [4 * ((0 : ℕ) : ℤ), 4 * ((0 : ℕ) : ℤ) + 1, 4 * ((0 : ℕ) : ℤ) + 2,
       4 * ((0 : ℕ) : ℤ), 4 * ((0 : ℕ) : ℤ) + 2, 4 * ((0 : ℕ) : ℤ) + 3] ∧
    (stepRune sampleFont emptyBufState 65).lineX
      = emptyBufState.lineX + (glyphAt sampleFont 65).Advance ∧
    (stepRune sampleFont emptyBufState 65).eboOffset = 4 * ((0 : ℕ) + 1)) :=
  ⟨by decide, rfl,
   emitted_quad_geometry sampleFont emptyBufState 65 0 (by decide) rfl⟩

/-- C9: `HasRune` and the layout loop use the same guard: a rune passes
`HasRune` exactly when processing it emits a 16-float quad, it fails
`HasRune` exactly when processing it is the identity on the buffer state,
and a rune list all of whose members fail `HasRune` produces no geometry
at all. -/
theorem hasRune_iff_emitted (t : Text) (st : BufState) (rs : List ℤ) (r : ℤ) :
    (hasRune t r = true ↔
      (stepRune t.font st r).vbo.length = st.vbo.length + 16) ∧
    (hasRune t r = false ↔ stepRune t.font st r = st) ∧
    ((∀ x ∈ rs, hasRune t x = false) → makeBufferData t.font rs = emptyBufState) := by
  refine ⟨?_, ?_, ?_⟩
  · rw [hasRune_eq_inRange, stepRune_vbo_length]
    cases hb : inRange t.font r <;> simp
  · rw [hasRune_eq_inRange]
    constructor
    · intro hb
      rw [stepRune_eq, hb]
      rfl
    · intro hst
      cases hb : inRange t.font r
      · rfl
      · exfalso
        have hlen := stepRune_vbo_length t.font st r
        rw [hst, hb] at hlen
        simp at hlen
  · intro h
    exact foldl_stepRune_all_skip t.font rs emptyBufState
      fun x hx => by rw [← hasRune_eq_inRange]; exact h x hx

/-- C9 (witness): instantiated on a fresh text over the sample font, the
in-range rune 65, the initial state, and the all-skipped list `[90, 91]`. -/
theorem hasRune_iff_emitted_witness :
    (hasRune (newText sampleFont (1/2) 2) 65 = true ↔
      (stepRune (newText sampleFont (1/2) 2).font emptyBufState 65).vbo.length
        = emptyBufState.vbo.length + 16) ∧
    (hasRune (newText sampleFont (1/2) 2) 65 = false ↔
      stepRune (newText sampleFont (1/2) 2).font emptyBufState 65 = emptyBufState) ∧
    ((∀ x ∈ ([90, 91] : List ℤ), hasRune (newText sampleFont (1/2) 2) x = false) →
      makeBufferData (newText sampleFont (1/2) 2).font [90, 91] = emptyBufState) :=
  hasRune_iff_emitted (newText sampleFont (1/2) 2) emptyBufState [90, 91] 65

end GLText

namespace GLText

/-- BufInv is the layout-loop invariant behind the centering law: the pen
never moves left of the origin, the running lower-left corner `X1` stays
pinned at `(0,0)` (it is seeded by the first vertex, emitted at pen 0,
and only ever lowered by componentwise minima of nonnegative values), and
the pen is still 0 while no vertex has been written. -/
def BufInv (st : BufState) : Prop :=
  0 ≤ st.lineX ∧ st.X1 = ⟨0, 0⟩ ∧ (st.vbo.length = 0 → st.lineX = 0)

/-- emitGlyph_inv: emitting a glyph with nonnegative metrics preserves
the layout-loop invariant. -/
lemma emitGlyph_inv (st : BufState) (g : Glyph)
    (hw : 0 ≤ g.Width) (hh : 0 ≤ g.Height) (ha : 0 ≤ g.Advance)
    (hst : BufInv st) : BufInv (emitGlyph st g) := by
  obtain ⟨hl, hX1, hemp⟩ := hst
  have hlw : (0:ℚ) ≤ st.lineX + g.Width := by linarith
  have m0 : min (0:ℚ) 0 = 0 := min_self 0
  have m1 : min (0:ℚ) st.lineX = 0 := min_eq_left hl
  have m2 : min (0:ℚ) (st.lineX + g.Width) = 0 := min_eq_left hlw
  have m3 : min (0:ℚ) g.Height = 0 := min_eq_left hh
  have m5 : min (0:ℚ) g.Width = 0 := min_eq_left hw
  refine ⟨?_, ?_, ?_⟩
  · show 0 ≤ st.lineX + g.Advance
    linarith
  · by_cases hb : st.vbo.length = 0
    · have hl0 := hemp hb
      simp [emitGlyph, getBoundingBox, hb, hl0, hX1, m0, m1, m2, m3, m5, Point.mk.injEq]
    · simp [emitGlyph, getBoundingBox, hb, hX1, m0, m1, m2, m3, m5, Point.mk.injEq]
  · intro habs
    rw [emitGlyph_vbo_length] at habs
    omega

/-- FontNonneg: every glyph of the font has nonnegative width, height and
advance — true of any bitmap-font metrics table, where these are pixel
dimensions. -/
def FontNonneg (f : Font) : Prop :=
  ∀ g ∈ f.Glyphs, 0 ≤ g.Width ∧ 0 ≤ g.Height ∧ 0 ≤ g.Advance

/-- glyphAt_nonneg: under the in-range guard, the glyph looked up by the
emission branch is a member of the table, so its metrics are nonnegative. -/
lemma glyphAt_nonneg (f : Font) (r : ℤ) (hf : FontNonneg f)
    (h : 0 ≤ r - f.Low ∧ r - f.Low < (f.Glyphs.length : ℤ)) :
    0 ≤ (glyphAt f r).Width ∧ 0 ≤ (glyphAt f r).Height ∧ 0 ≤ (glyphAt f r).Advance := by
  have hlt : (r - f.Low).toNat < f.Glyphs.length := by omega
  have hg : glyphAt f r = f.Glyphs[(r - f.Low).toNat] :=
    List.getD_eq_getElem f.Glyphs default hlt
  rw [hg]
  exact hf _ (List.getElem_mem hlt)

/-- stepRune_inv: each loop iteration preserves the layout invariant. -/
lemma stepRune_inv (f : Font) (hf : FontNonneg f) (st : BufState) (r : ℤ)
    (hst : BufInv st) : BufInv (stepRune f st r) := by
  simp only [stepRune]
  split
  · next h =>
      obtain ⟨hw, hh, ha⟩ := glyphAt_nonneg f r hf h
      exact emitGlyph_inv st _ hw hh ha hst
  · exact hst

/-- makeBufferData_inv: the layout loop establishes the invariant from the
initial state; in particular `X1 = (0,0)` when the loop finishes. -/
lemma makeBufferData_inv (f : Font) (hf : FontNonneg f) (rs : List ℤ) :
    BufInv (makeBufferData f rs) := by
  have key : ∀ (l : List ℤ) (st : BufState), BufInv st → BufInv (l.foldl (stepRune f) st) := by
    intro l
    induction l with
    | nil => intro st h; exact h
    | cons r l ih => intro st h; exact ih _ (stepRune_inv f hf st r h)
  exact key rs emptyBufState ⟨le_refl 0, rfl, fun _ => rfl⟩

/-- C5: on a freshly positioned text (anchor `(0,0)`, as after
construction) over a font with nonnegative metrics, a non-empty layout
leaves the bounding box symmetric about the origin: `X1 + X2 = (0,0)`
componentwise, because the loop ends with `X1 = (0,0)` and `SetString` adds
the lower-left offset `(-(X2.X-X1.X)/2, -(X2.Y-X1.Y)/2)` to both corners
(and to every vertex position). -/
theorem setString_centers_bbox (t : Text) (rs : List ℤ)
    (hf : FontNonneg t.font)
    (hx : t.SetPositionX = 0) (hy : t.SetPositionY = 0)
    (h : rs ≠ []) :
    (setString t rs).X1.X + (setString t rs).X2.X = 0 ∧
    (setString t rs).X1.Y + (setString t rs).X2.Y = 0 := by
  have h0 : ¬(rs.length = 0) := by simpa using h
  obtain ⟨-, hX1, -⟩ := makeBufferData_inv t.font hf (truncateRunes t.MaxRuneCount rs)
  simp only [setString]
  rw [if_neg h0]
  simp only [setPosition, getLowerLeft, hx, hy, hX1]
  constructor <;> ring

/-- sampleFont_nonneg: the sample font's metrics are nonnegative. -/
lemma sampleFont_nonneg : FontNonneg sampleFont := by
  intro g hg
  simp only [sampleFont, List.mem_cons, List.not_mem_nil, or_false] at hg
  rcases hg with rfl | rfl <;> norm_num [glyphA, glyphB]

/-- newText_font: the constructor binds exactly the supplied font. -/
lemma newText_font (f : Font) (a b : ℚ) : (newText f a b).font = f := by
  simp only [newText, setScale]
  split <;> rfl

/-- C5 (witness): on a fresh text, laying out \"A\" (glyph width 10,
height 20, advance 12) gives `X1 = (-5,-10)`, `X2 = (5,10)`, summing to
the origin — the spec's worked example. -/
theorem setString_centers_bbox_witness :
    FontNonneg (newText sampleFont (1/2) 2).font ∧
    (newText sampleFont (1/2) 2).SetPositionX = 0 ∧
    (newText sampleFont (1/2) 2).SetPositionY = 0 ∧
    (([65] : List ℤ) ≠ []) ∧
    ((setString (newText sampleFont (1/2) 2) [65]).X1.X
        + (setString (newText sampleFont (1/2) 2) [65]).X2.X = 0 ∧
     (setString (newText sampleFont (1/2) 2) [65]).X1.Y
        + (setString (newText sampleFont (1/2) 2) [65]).X2.Y = 0) ∧
    (setString (newText sampleFont (1/2) 2) [65]).X1 = ⟨-5, -10⟩ ∧
    (setString (newText sampleFont (1/2) 2) [65]).X2 = ⟨5, 10⟩ :=
  ⟨by rw [newText_font]; exact sampleFont_nonneg,
   by norm_num [newText, setScale],
   by norm_num [newText, setScale],
   by decide,
   setString_centers_bbox (newText sampleFont (1/2) 2) [65]
     (by rw [newText_font]; exact sampleFont_nonneg)
     (by norm_num [newText, setScale]) (by norm_num [newText, setScale]) (by decide),
   by
     norm_num [newText, setScale, setString, truncateRunes, makeBufferData,
       stepRune, emitGlyph, glyphAt, getBoundingBox, emptyBufState, getLowerLeft,
       addOffset, setPosition, sampleFont, glyphA, glyphB, min_def, max_def,
       Point.mk.injEq],
   by
     norm_num [newText, setScale, setString, truncateRunes, makeBufferData,
       stepRune, emitGlyph, glyphAt, getBoundingBox, emptyBufState, getLowerLeft,
       addOffset, setPosition, sampleFont, glyphA, glyphB, min_def, max_def,
       Point.mk.injEq]⟩

end GLText
